import Mathlib

/-!
# Verification of the markdown merger (`compile.py`)

A shallow embedding of `merge_markdown_files` and `main` from `src/compile.py`.

The filesystem is modelled explicitly: the source path holds a `SrcEntry`
(absent, a regular file, or a directory listing the files directly inside it
as `(filename, content)` pairs), and the output file's state is threaded
through as an `Option String` (`none` = the file does not exist).

I/O failures are injected through two oracles: `readFail name` says whether
`read_text` on the source file called `name` raises, and `writeFail k` says
whether the `k`-th `write` call on the output handle raises (a failing write
is modelled as appending nothing).

File reads happen in text mode (`read_text(encoding='utf-8')`), so every
content read passes through universal-newline translation (`readText`):
`\r\n` and lone `\r` become `\n`.  Writes go through a buffered text handle:
they are not immediately visible on disk.  A mid-loop read of the output
path therefore sees only the portion the handle has flushed so far,
abstracted as `flushed out` — a platform-determined function of the logical
output written so far (a prefix of it; with CPython's default 8 KiB buffer
it is empty until the buffer fills).  Theorems quantify over `flushed`, so
they hold for the platform's actual flush behaviour; `fun _ => ""` is the
sub-buffer-size instance.  Leaving the `with` block (normally or via an
exception) closes the handle and flushes everything, so the final on-disk
state is the full logical output.  Write-side newline translation is the
identity on POSIX (`os.linesep` is `\n`). -/

/-- The literal separator written between consecutive files
(`outfile.write('\n\n---\n\n')` in `compile.py`). -/
def SEPARATOR : String := "\n\n---\n\n"

/-- What the filesystem holds at the source-directory path `book_dir`:
nothing, a regular file, or a directory whose directly contained files are
listed as `(filename, content)` pairs. -/
inductive SrcEntry where
  | absent
  | file (content : String)
  | dir (files : List (String × String))
  deriving Repr, DecidableEq

/-- The outcome of `merge_markdown_files`.  The Python function returns a
bare `True`/`False`, but each `False` is produced at a distinct program
point with a distinct diagnostic message; the constructors name those
return sites (the spec's error taxonomy).  `ok` carries the file count and
output byte size printed on success. -/
inductive MergeResult where
  | ok (fileCount : Nat) (outputSize : Nat)
  | notFound
  | notADirectory
  | emptyInput
  | ioFailure
  deriving Repr, DecidableEq

/-- Python's string `<=`: lexicographic comparison of the character
sequences by codepoint (`Char.toNat` is the codepoint). -/
def charsLe : List Char → List Char → Bool
  | [], _ => true
  | _ :: _, [] => false
  | a :: as, b :: bs =>
    if a.toNat < b.toNat then true
    else if b.toNat < a.toNat then false
    else charsLe as bs

/-- Universal-newline translation performed by text-mode reads
(`newline=None`): a `\r\n` pair and a lone `\r` are both turned into
`\n`. -/
def translateNewlines : List Char → List Char
  | [] => []
  | [c] => if c = '\r' then ['\n'] else [c]
  | c :: c2 :: rest =>
    if c = '\r' then
      if c2 = '\n' then '\n' :: translateNewlines rest
      else '\n' :: translateNewlines (c2 :: rest)
    else c :: translateNewlines (c2 :: rest)

/-- `read_text(encoding='utf-8')`: the file's text after universal-newline
translation. -/
def readText (s : String) : String := ⟨translateNewlines s.data⟩

/-- `book_path.glob('*.md')`: the entries directly inside the directory
whose name ends in `.md` (`pathlib` glob matches dotfiles, so the `*.md`
pattern is exactly a suffix test on the name). -/
def matchedFiles (files : List (String × String)) : List (String × String) :=
  files.filter (fun f => ".md".data.isSuffixOf f.1.data)

/-- `sorted(...)` on the globbed paths: since all matched paths share the
directory prefix, Python's path ordering reduces to lexicographic
(codepoint) comparison of the filenames.  Python's `sorted` is a stable
sort, as is `insertionSort`. -/
def sortFiles (files : List (String × String)) : List (String × String) :=
  List.insertionSort (fun a b => charsLe a.1.data b.1.data = true) files

/-- The write loop of `merge_markdown_files` (lines 44-55): for each file,
read its content (text mode, so through `readText`) and write it, then
write `SEPARATOR` unless the file is the last.  `out` is the logical
output written to the handle so far (the handle was opened with `'w'`, so
the file starts empty); `k` numbers the `write` calls for the `writeFail`
oracle.  Reading a file whose full path equals `outputFile` sees the
truncated on-disk file, which holds only what the buffered handle has
flushed of `out` so far (`flushed out`; empty below the buffer size).
A raised exception aborts the loop; `.error out` carries the partial
output the closing flush then leaves behind. -/
def mergeLoop (bookDir outputFile : String) (readFail : String → Bool)
    (writeFail : Nat → Bool) (flushed : String → String) :
    List (String × String) → Nat → String → Except String String
  | [], _, out => .ok out
  | (name, orig) :: rest, k, out =>
    if readFail name then .error out
    else
      let content :=
        readText (if bookDir ++ "/" ++ name = outputFile then flushed out else orig)
      if writeFail k then .error out
      else
        let out1 := out ++ content
        match rest with
        | [] => .ok out1
        | r :: rs =>
          if writeFail (k + 1) then .error out1
          else mergeLoop bookDir outputFile readFail writeFail flushed (r :: rs)
            (k + 2) (out1 ++ SEPARATOR)

/-- `merge_markdown_files(book_dir, output_file)`: existence check,
directory check, glob + sort, empty check, then open the output for
writing (truncating it) and run the write loop.  Returns the result
together with the final state of the output file (`outInit` is its state
before the call; it is passed through untouched on the early-exit
failures, which happen before the output is opened). -/
def mergeMarkdownFiles (bookDir outputFile : String) (src : SrcEntry)
    (outInit : Option String) (readFail : String → Bool)
    (writeFail : Nat → Bool) (flushed : String → String) :
    MergeResult × Option String :=
  match src with
  | .absent => (.notFound, outInit)
  | .file _ => (.notADirectory, outInit)
  | .dir files =>
    let mdFiles := sortFiles (matchedFiles files)
    if mdFiles.isEmpty then (.emptyInput, outInit)
    else
      match mergeLoop bookDir outputFile readFail writeFail flushed mdFiles 0 "" with
      | .ok out => (.ok mdFiles.length out.utf8ByteSize, some out)
      | .error partialOut => (.ioFailure, some partialOut)

/-- `main()`: runs the merge and turns its boolean result into the process
exit code (`return 0 if success else 1`). -/
def mainExitCode (bookDir outputFile : String) (src : SrcEntry)
    (outInit : Option String) (readFail : String → Bool)
    (writeFail : Nat → Bool) (flushed : String → String) : Nat :=
  match (mergeMarkdownFiles bookDir outputFile src outInit readFail writeFail
      flushed).1 with
  | .ok _ _ => 0
  | _ => 1

/-- The spec-side formula for the compiled document: the files' contents
concatenated in order with `SEPARATOR` between consecutive entries and
none after the last. -/
def joinWithSep : List String → String
  | [] => ""
  | [c] => c
  | c :: c' :: rest => c ++ SEPARATOR ++ joinWithSep (c' :: rest)

/-- The content of the output file at the moment a matched file is read,
given the contents `cs` of the files already processed: the separator-join
of `cs` followed by one separator (empty when no file came before). -/
def partialBefore (cs : List String) : String :=
  match cs with
  | [] => ""
  | _ :: _ => joinWithSep cs ++ SEPARATOR

/-! ## Basic facts about the ordering, the sort and the separator join -/

theorem translateNewlines_of_no_cr : ∀ cs : List Char, ('\r' : Char) ∉ cs →
    translateNewlines cs = cs := by
  intro cs
  induction cs with
  | nil => intro _; rfl
  | cons c rest ih =>
    intro h
    have hc : ¬ c = '\r' := fun he => h (he ▸ List.mem_cons_self _ _)
    have hrest : ('\r' : Char) ∉ rest := fun hm => h (List.mem_cons_of_mem _ hm)
    cases rest with
    | nil => simp [translateNewlines, hc]
    | cons c2 rest2 => simp [translateNewlines, hc, ih hrest]

/-- Text-mode reading is byte-for-byte passthrough exactly on contents
holding no carriage return. -/
theorem readText_of_no_cr (s : String) (h : ('\r' : Char) ∉ s.data) :
    readText s = s := by
  unfold readText
  rw [translateNewlines_of_no_cr s.data h]

theorem charsLe_total (as bs : List Char) :
    charsLe as bs = true ∨ charsLe bs as = true := by
  induction as generalizing bs with
  | nil => left; rfl
  | cons a as ih =>
    cases bs with
    | nil => right; rfl
    | cons b bs =>
      by_cases h1 : a.toNat < b.toNat
      · left; simp [charsLe, h1]
      · by_cases h2 : b.toNat < a.toNat
        · right; simp [charsLe, h1, h2]
        · rcases ih bs with h | h
          · left; simp [charsLe, h1, h2, h]
          · right; simp [charsLe, h1, h2, h]

theorem charsLe_trans : ∀ as bs cs : List Char, charsLe as bs = true →
    charsLe bs cs = true → charsLe as cs = true := by
  intro as
  induction as with
  | nil => intro bs cs _ _; rfl
  | cons a as ih =>
    intro bs cs hab hbc
    cases bs with
    | nil => simp [charsLe] at hab
    | cons b bs =>
      cases cs with
      | nil => simp [charsLe] at hbc
      | cons c cs =>
        simp only [charsLe] at hab hbc ⊢
        by_cases h1 : a.toNat < b.toNat
        · by_cases h2 : b.toNat < c.toNat
          · have h3 : a.toNat < c.toNat := by omega
            simp [h3]
          · by_cases h4 : c.toNat < b.toNat
            · simp [h2, h4] at hbc
            · have h3 : a.toNat < c.toNat := by omega
              simp [h3]
        · by_cases h5 : b.toNat < a.toNat
          · simp [h1, h5] at hab
          · rw [if_neg h1, if_neg h5] at hab
            by_cases h2 : b.toNat < c.toNat
            · have h3 : a.toNat < c.toNat := by omega
              simp [h3]
            · by_cases h4 : c.toNat < b.toNat
              · simp [h2, h4] at hbc
              · rw [if_neg h2, if_neg h4] at hbc
                have h3 : ¬ a.toNat < c.toNat := by omega
                have h6 : ¬ c.toNat < a.toNat := by omega
                rw [if_neg h3, if_neg h6]
                exact ih bs cs hab hbc

theorem sortFiles_perm (files : List (String × String)) :
    (sortFiles files).Perm files :=
  List.perm_insertionSort _ files

theorem sortFiles_sorted (files : List (String × String)) :
    List.Sorted (fun a b : String × String => charsLe a.1.data b.1.data = true)
      (sortFiles files) := by
  letI : IsTotal (String × String)
      (fun a b : String × String => charsLe a.1.data b.1.data = true) :=
    ⟨fun a b => charsLe_total a.1.data b.1.data⟩
  letI : IsTrans (String × String)
      (fun a b : String × String => charsLe a.1.data b.1.data = true) :=
    ⟨fun a b c => charsLe_trans a.1.data b.1.data c.1.data⟩
  exact List.sorted_insertionSort _ files

theorem joinWithSep_cons (c : String) (cs : List String) (h : cs ≠ []) :
    joinWithSep (c :: cs) = c ++ SEPARATOR ++ joinWithSep cs := by
  cases cs with
  | nil => exact absurd rfl h
  | cons c' rest => rfl

theorem sortFiles_eq_nil_iff (files : List (String × String)) :
    sortFiles files = [] ↔ files = [] := by
  constructor
  · intro h
    have hl := (sortFiles_perm files).length_eq
    rw [h] at hl
    exact List.length_eq_zero.mp hl.symm
  · intro h; rw [h]; rfl

theorem mem_of_mem_sortFiles {p : String × String}
    {files : List (String × String)} (h : p ∈ sortFiles files) : p ∈ files :=
  (sortFiles_perm files).mem_iff.mp h

theorem mem_files_of_matched {p : String × String}
    {files : List (String × String)} (h : p ∈ matchedFiles files) : p ∈ files :=
  List.mem_of_mem_filter h

/-- With no injected I/O failure and no matched file sitting at the output
path, the write loop appends the separator-join of the remaining contents
(as read in text mode) to what has been written so far. -/
theorem mergeLoop_ok (bookDir outputFile : String) (flushed : String → String) :
    ∀ (fs : List (String × String)) (k : Nat) (acc : String),
    (∀ p ∈ fs, bookDir ++ "/" ++ p.1 ≠ outputFile) →
    mergeLoop bookDir outputFile (fun _ => false) (fun _ => false) flushed
        fs k acc =
      .ok (acc ++ joinWithSep (fs.map (fun p => readText p.2))) := by
  intro fs
  induction fs with
  | nil => intro k acc _; simp [mergeLoop, joinWithSep, String.append_empty]
  | cons f rest ih =>
    intro k acc h
    obtain ⟨name, orig⟩ := f
    have hself : ¬ bookDir ++ "/" ++ name = outputFile := h (name, orig) (by simp)
    cases rest with
    | nil => simp [mergeLoop, hself, joinWithSep]
    | cons r rs =>
      have hrec := ih (k + 2) (acc ++ readText orig ++ SEPARATOR)
        (fun p hp => h p (List.mem_cons_of_mem _ hp))
      simp only [mergeLoop, if_neg hself, Bool.false_eq_true, if_false, hrec]
      simp only [List.map_cons]
      rw [joinWithSep_cons (readText orig) _ (by simp)]
      simp [String.append_assoc]

/-- Shared helper: when no entry matches `*.md`, the merge fails with
`emptyInput` before the output file is touched. -/
theorem merge_empty (bookDir outputFile : String)
    (files : List (String × String)) (outInit : Option String)
    (readFail : String → Bool) (writeFail : Nat → Bool)
    (flushed : String → String) (h : matchedFiles files = []) :
    mergeMarkdownFiles bookDir outputFile (.dir files) outInit readFail
        writeFail flushed =
      (.emptyInput, outInit) := by
  have hs : sortFiles (matchedFiles files) = [] := by rw [h]; rfl
  simp [mergeMarkdownFiles, hs]

/-- Shared helper: with at least one match, no injected I/O failure, and
the output path distinct from every file in the source directory, the
merge succeeds and the output file holds the separator-join of the matched
files' text-mode contents in sorted order. -/
theorem merge_joined (bookDir outputFile : String)
    (files : List (String × String)) (outInit : Option String)
    (flushed : String → String) (hne : matchedFiles files ≠ [])
    (hout : ∀ p ∈ files, bookDir ++ "/" ++ p.1 ≠ outputFile) :
    mergeMarkdownFiles bookDir outputFile (.dir files) outInit
        (fun _ => false) (fun _ => false) flushed =
      (.ok (sortFiles (matchedFiles files)).length
        (joinWithSep ((sortFiles (matchedFiles files)).map
          (fun p => readText p.2))).utf8ByteSize,
       some (joinWithSep ((sortFiles (matchedFiles files)).map
          (fun p => readText p.2)))) := by
  have hnil : sortFiles (matchedFiles files) ≠ [] := by
    rw [ne_eq, sortFiles_eq_nil_iff]; exact hne
  have hloop := mergeLoop_ok bookDir outputFile flushed
    (sortFiles (matchedFiles files)) 0 ""
    (fun p hp => hout p (mem_files_of_matched (mem_of_mem_sortFiles hp)))
  simp [mergeMarkdownFiles, List.isEmpty_eq_false.mpr hnil, hloop,
    String.empty_append]

/-- Shared helper: if reading some remaining file fails, or one of the
remaining `write` calls fails, the loop aborts with an error carrying the
partial output. -/
theorem mergeLoop_error (bookDir outputFile : String) (rf : String → Bool)
    (wf : Nat → Bool) (flushed : String → String) :
    ∀ (fs : List (String × String)) (k : Nat) (acc : String),
    ((∃ p ∈ fs, rf p.1 = true) ∨
      (∃ j, k ≤ j ∧ j + 1 < k + 2 * fs.length ∧ wf j = true)) →
    ∃ out, mergeLoop bookDir outputFile rf wf flushed fs k acc = .error out := by
  intro fs
  induction fs with
  | nil =>
    intro k acc h
    rcases h with ⟨p, hp, _⟩ | ⟨j, hj1, hj2, _⟩
    · exact absurd hp (List.not_mem_nil p)
    · simp only [List.length_nil, Nat.mul_zero, Nat.add_zero] at hj2
      exact absurd hj1 (by omega)
  | cons f rest ih =>
    intro k acc h
    obtain ⟨name, orig⟩ := f
    by_cases hr : rf name = true
    · exact ⟨acc, by simp [mergeLoop, hr]⟩
    · have hrf : rf name = false := by revert hr; cases rf name <;> simp
      by_cases hw : wf k = true
      · exact ⟨acc, by simp [mergeLoop, hrf, hw]⟩
      · have hwf : wf k = false := by revert hw; cases wf k <;> simp
        cases rest with
        | nil =>
          exfalso
          rcases h with ⟨p, hp, hrp⟩ | ⟨j, hj1, hj2, hwj⟩
          · rw [List.mem_singleton.mp hp] at hrp
            rw [hrf] at hrp
            exact Bool.false_ne_true hrp
          · simp only [List.length_cons, List.length_nil] at hj2
            have : j = k := by omega
            rw [this, hwf] at hwj
            exact Bool.false_ne_true hwj
        | cons r rs =>
          by_cases hw1 : wf (k + 1) = true
          · refine ⟨acc ++ readText (if bookDir ++ "/" ++ name = outputFile then
              flushed acc else orig), ?_⟩
            simp [mergeLoop, hrf, hwf, hw1]
          · have hwf1 : wf (k + 1) = false := by revert hw1; cases wf (k + 1) <;> simp
            have hnext :
                (∃ p ∈ r :: rs, rf p.1 = true) ∨
                  (∃ j, k + 2 ≤ j ∧ j + 1 < (k + 2) + 2 * (r :: rs).length ∧
                    wf j = true) := by
              rcases h with ⟨p, hp, hrp⟩ | ⟨j, hj1, hj2, hwj⟩
              · rcases List.mem_cons.mp hp with hph | hpt
                · rw [hph] at hrp
                  rw [hrf] at hrp
                  exact absurd hrp Bool.false_ne_true
                · exact Or.inl ⟨p, hpt, hrp⟩
              · have hjk : j ≠ k := by
                  intro he; rw [he, hwf] at hwj; exact Bool.false_ne_true hwj
                have hjk1 : j ≠ k + 1 := by
                  intro he; rw [he, hwf1] at hwj; exact Bool.false_ne_true hwj
                refine Or.inr ⟨j, by omega, ?_, hwj⟩
                simp only [List.length_cons] at hj2 ⊢
                omega
            obtain ⟨out, hout⟩ := ih (k + 2)
              (acc ++ readText (if bookDir ++ "/" ++ name = outputFile then
                flushed acc else orig) ++ SEPARATOR) hnext
            exact ⟨out, by simp [mergeLoop, hrf, hwf, hwf1, hout]⟩

theorem partialBefore_cons (c : String) (cs : List String) :
    partialBefore (c :: cs) = c ++ SEPARATOR ++ partialBefore cs := by
  cases cs with
  | nil => simp [partialBefore, joinWithSep, String.append_empty]
  | cons c' rest =>
    simp only [partialBefore]
    rw [joinWithSep_cons c _ (by simp)]
    simp [String.append_assoc]

/-- Shared helper: the write loop when exactly one of the processed files
(the entry `w`) sits at the output path.  The output was truncated at
open, so reading `w` sees only what the buffered handle has flushed of the
output written so far (`flushed`, then newline translation), and the final
output replaces `w`'s contribution by that text. -/
theorem mergeLoop_self (bookDir outputFile : String) (flushed : String → String) :
    ∀ (pre : List (String × String)) (w : String × String)
      (post : List (String × String)) (k : Nat) (acc : String),
    (∀ p ∈ pre, bookDir ++ "/" ++ p.1 ≠ outputFile) →
    (∀ p ∈ post, bookDir ++ "/" ++ p.1 ≠ outputFile) →
    bookDir ++ "/" ++ w.1 = outputFile →
    mergeLoop bookDir outputFile (fun _ => false) (fun _ => false) flushed
        (pre ++ w :: post) k acc =
      .ok (acc ++ joinWithSep (pre.map (fun p => readText p.2) ++
        readText (flushed (acc ++ partialBefore (pre.map (fun p => readText p.2)))) ::
          post.map (fun p => readText p.2))) := by
  intro pre
  induction pre with
  | nil =>
    intro w post k acc _ hpost hw
    obtain ⟨wname, worig⟩ := w
    cases post with
    | nil =>
      simp [mergeLoop, hw, partialBefore, joinWithSep, String.append_empty]
    | cons r rs =>
      have hrec := mergeLoop_ok bookDir outputFile flushed (r :: rs) (k + 2)
        (acc ++ readText (flushed acc) ++ SEPARATOR) hpost
      simp only [List.nil_append, mergeLoop, hw, if_true, Bool.false_eq_true,
        if_false, hrec, List.map_nil, List.map_cons, partialBefore,
        String.append_empty]
      rw [joinWithSep_cons (readText (flushed acc)) _ (by simp)]
      simp [String.append_assoc]
  | cons p pre' ih =>
    intro w post k acc hpre hpost hw
    obtain ⟨pname, porig⟩ := p
    have hp : ¬ bookDir ++ "/" ++ pname = outputFile :=
      hpre (pname, porig) (by simp)
    obtain ⟨r, rs, hrr⟩ : ∃ r rs, pre' ++ w :: post = r :: rs := by
      cases pre' with
      | nil => exact ⟨w, post, rfl⟩
      | cons q qs => exact ⟨q, qs ++ w :: post, rfl⟩
    have hrec := ih w post (k + 2) (acc ++ readText porig ++ SEPARATOR)
      (fun q hq => hpre q (List.mem_cons_of_mem _ hq)) hpost hw
    rw [hrr] at hrec
    simp only [List.cons_append, mergeLoop, if_neg hp, Bool.false_eq_true,
      if_false, hrr, hrec, List.map_cons]
    rw [joinWithSep_cons (readText porig) _ (by simp), partialBefore_cons]
    simp [String.append_assoc]

/-! ## Claim theorems -/

/-- C1 (counterexample): the claim fails as stated on two inputs it
covers.  First, when the output path is itself a matched file of the
source directory (`book/` holding `a.md` = "A" and `compiled.md` = "OLD",
merged to `book/compiled.md`), the merge succeeds yet the output is not
the separator-join of the matched files' original contents.  Second,
text-mode reading is not byte-for-byte: a single file `only.md` holding
`"X\r\nY"` merges successfully to `"X\nY"`, not to its own content. -/
theorem C1_cex :
    ((∃ n s, (mergeMarkdownFiles "book" "book/compiled.md"
      (.dir [("a.md", "A"), ("compiled.md", "OLD")]) (some "OLD")
      (fun _ => false) (fun _ => false) (fun _ => "")).1 = .ok n s) ∧
    (mergeMarkdownFiles "book" "book/compiled.md"
      (.dir [("a.md", "A"), ("compiled.md", "OLD")]) (some "OLD")
      (fun _ => false) (fun _ => false) (fun _ => "")).2 ≠
      some (joinWithSep ((sortFiles (matchedFiles
        [("a.md", "A"), ("compiled.md", "OLD")])).map Prod.snd))) ∧
    ((∃ n s, (mergeMarkdownFiles "book" "out.md"
      (.dir [("only.md", "X\r\nY")]) none
      (fun _ => false) (fun _ => false) (fun _ => "")).1 = .ok n s) ∧
    (mergeMarkdownFiles "book" "out.md"
      (.dir [("only.md", "X\r\nY")]) none
      (fun _ => false) (fun _ => false) (fun _ => "")).2 ≠
      some (joinWithSep ((sortFiles (matchedFiles
        [("only.md", "X\r\nY")])).map Prod.snd))) :=
  ⟨⟨⟨2, 8, by decide⟩, by decide⟩, ⟨⟨1, 3, by decide⟩, by decide⟩⟩

/-- C1 (amended): for every source directory containing at least one file
whose name ends in `.md`, provided the output path is not the path of a
file inside the source directory, the merge succeeds and writes to the
output path exactly the concatenation of the matched files' contents as
read in text mode — after universal-newline translation (`\r\n` and `\r`
become `\n`) — in sorted order, with the literal separator `"\n\n---\n\n"`
between consecutive files and none after the last; contents holding no
carriage return are passed through byte-for-byte (so for a single CR-free
file the output equals that file's content exactly). -/
theorem C1_thm (bookDir outputFile : String) (files : List (String × String))
    (outInit : Option String) (flushed : String → String)
    (hne : matchedFiles files ≠ [])
    (hout : ∀ p ∈ files, bookDir ++ "/" ++ p.1 ≠ outputFile) :
    (∃ n s, (mergeMarkdownFiles bookDir outputFile (.dir files) outInit
      (fun _ => false) (fun _ => false) flushed).1 = .ok n s) ∧
    (mergeMarkdownFiles bookDir outputFile (.dir files) outInit
      (fun _ => false) (fun _ => false) flushed).2 =
      some (joinWithSep ((sortFiles (matchedFiles files)).map
        (fun p => readText p.2))) ∧
    ((∀ p ∈ files, ('\r' : Char) ∉ p.2.data) →
      (mergeMarkdownFiles bookDir outputFile (.dir files) outInit
        (fun _ => false) (fun _ => false) flushed).2 =
        some (joinWithSep ((sortFiles (matchedFiles files)).map Prod.snd))) := by
  have hm := merge_joined bookDir outputFile files outInit flushed hne hout
  refine ⟨⟨_, _, by rw [hm]⟩, by rw [hm], fun hcr => ?_⟩
  rw [hm]
  have hmap : (sortFiles (matchedFiles files)).map (fun p => readText p.2) =
      (sortFiles (matchedFiles files)).map Prod.snd := by
    apply List.map_congr_left
    intro p hp
    exact readText_of_no_cr p.2
      (hcr p (mem_files_of_matched (mem_of_mem_sortFiles hp)))
  rw [hmap]

/-- C1 (witness): the amended theorem at a concrete CR-free directory
`{a.md = "A", b.md = "B"}` with output `out.md` outside it. -/
theorem C1_witness :
    (∃ n s, (mergeMarkdownFiles "book" "out.md"
      (.dir [("b.md", "B"), ("a.md", "A")]) none
      (fun _ => false) (fun _ => false) (fun _ => "")).1 = .ok n s) ∧
    (mergeMarkdownFiles "book" "out.md"
      (.dir [("b.md", "B"), ("a.md", "A")]) none
      (fun _ => false) (fun _ => false) (fun _ => "")).2 =
      some (joinWithSep ((sortFiles (matchedFiles
        [("b.md", "B"), ("a.md", "A")])).map (fun p => readText p.2))) ∧
    ((∀ p ∈ [("b.md", "B"), ("a.md", "A")], ('\r' : Char) ∉ p.2.data) →
      (mergeMarkdownFiles "book" "out.md"
        (.dir [("b.md", "B"), ("a.md", "A")]) none
        (fun _ => false) (fun _ => false) (fun _ => "")).2 =
        some (joinWithSep ((sortFiles (matchedFiles
          [("b.md", "B"), ("a.md", "A")])).map Prod.snd))) :=
  C1_thm "book" "out.md" [("b.md", "B"), ("a.md", "A")] none (fun _ => "")
    (by decide) (by decide)

/-- C2: matched entries are merged in ascending lexicographic (codepoint)
order of filename — `sortFiles` emits a list sorted by `charsLe` on the
names that is a permutation of its input — and on the directory
`{2.md, 10.md, 1.md}` the merge order is `1.md`, `10.md`, `2.md` (string
order, not numeric), which alone determines the output sequence. -/
theorem C2_thm :
    (∀ files : List (String × String),
      List.Sorted (fun a b : String × String => charsLe a.1.data b.1.data = true)
        (sortFiles files) ∧ (sortFiles files).Perm files) ∧
    sortFiles [("2.md", "TWO"), ("10.md", "TEN"), ("1.md", "ONE")] =
      [("1.md", "ONE"), ("10.md", "TEN"), ("2.md", "TWO")] ∧
    (mergeMarkdownFiles "book" "compiled.md"
      (.dir [("2.md", "TWO"), ("10.md", "TEN"), ("1.md", "ONE")]) none
      (fun _ => false) (fun _ => false) (fun _ => "")).2 =
      some "ONE\n\n---\n\nTEN\n\n---\n\nTWO" :=
  ⟨fun files => ⟨sortFiles_sorted files, sortFiles_perm files⟩, by decide, by decide⟩

/-- C3: a source directory with zero `.md` files (whatever other files it
holds) makes the merge fail with `emptyInput`, and the output path's state
is passed through unchanged (neither created nor modified). -/
theorem C3_thm (bookDir outputFile : String) (files : List (String × String))
    (outInit : Option String) (readFail : String → Bool) (writeFail : Nat → Bool)
    (flushed : String → String) (h : matchedFiles files = []) :
    mergeMarkdownFiles bookDir outputFile (.dir files) outInit readFail
        writeFail flushed =
      (.emptyInput, outInit) :=
  merge_empty bookDir outputFile files outInit readFail writeFail flushed h

/-- C3 (witness): a directory holding only `notes.txt`. -/
theorem C3_witness :
    mergeMarkdownFiles "book" "compiled.md" (.dir [("notes.txt", "N")]) none
      (fun _ => false) (fun _ => false) (fun _ => "") = (.emptyInput, none) :=
  C3_thm "book" "compiled.md" [("notes.txt", "N")] none _ _ _ (by decide)

/-- C4: a non-existent source directory makes the merge fail with
`notFound`; the output path's state is passed through unchanged (no side
effects). -/
theorem C4_thm (bookDir outputFile : String) (outInit : Option String)
    (readFail : String → Bool) (writeFail : Nat → Bool)
    (flushed : String → String) :
    mergeMarkdownFiles bookDir outputFile .absent outInit readFail writeFail
      flushed = (.notFound, outInit) := rfl

/-- C5: a source path that exists but is a regular file makes the merge
fail with `notADirectory`; the output path's state is passed through
unchanged (no side effects). -/
theorem C5_thm (bookDir outputFile : String) (content : String)
    (outInit : Option String) (readFail : String → Bool) (writeFail : Nat → Bool)
    (flushed : String → String) :
    mergeMarkdownFiles bookDir outputFile (.file content) outInit readFail
      writeFail flushed = (.notADirectory, outInit) := rfl

/-- C6: if reading some matched source file raises, or one of the `write`
calls on the output raises, the whole operation aborts and the result is
the `ioFailure` failure — never the success result — while the (possibly
truncated) output file remains in place. -/
theorem C6_thm (bookDir outputFile : String) (files : List (String × String))
    (outInit : Option String) (rf : String → Bool) (wf : Nat → Bool)
    (flushed : String → String)
    (h : (∃ p ∈ matchedFiles files, rf p.1 = true) ∨
      (∃ j, j + 1 < 2 * (matchedFiles files).length ∧ wf j = true)) :
    (mergeMarkdownFiles bookDir outputFile (.dir files) outInit rf wf
      flushed).1 = .ioFailure ∧
    ((mergeMarkdownFiles bookDir outputFile (.dir files) outInit rf wf
      flushed).2).isSome = true := by
  have hne : matchedFiles files ≠ [] := by
    rcases h with ⟨p, hp, _⟩ | ⟨j, hj, _⟩
    · intro he; rw [he] at hp; exact List.not_mem_nil p hp
    · intro he; rw [he] at hj; simp at hj
  have hnil : sortFiles (matchedFiles files) ≠ [] := by
    rw [ne_eq, sortFiles_eq_nil_iff]; exact hne
  have hlen : (sortFiles (matchedFiles files)).length =
      (matchedFiles files).length := (sortFiles_perm _).length_eq
  have h' : (∃ p ∈ sortFiles (matchedFiles files), rf p.1 = true) ∨
      (∃ j, 0 ≤ j ∧ j + 1 < 0 + 2 * (sortFiles (matchedFiles files)).length ∧
        wf j = true) := by
    rcases h with ⟨p, hp, hrp⟩ | ⟨j, hj, hwj⟩
    · exact Or.inl ⟨p, (sortFiles_perm _).mem_iff.mpr hp, hrp⟩
    · exact Or.inr ⟨j, Nat.zero_le j, by rw [hlen]; omega, hwj⟩
  obtain ⟨out, hout⟩ := mergeLoop_error bookDir outputFile rf wf flushed
    (sortFiles (matchedFiles files)) 0 "" h'
  simp [mergeMarkdownFiles, List.isEmpty_eq_false.mpr hnil, hout]

/-- C6 (witness): every read fails on a one-file directory; the merge
fails with `ioFailure` and a (truncated) output file remains. -/
theorem C6_witness :
    (mergeMarkdownFiles "book" "out.md" (.dir [("a.md", "A")]) (some "OLD")
      (fun _ => true) (fun _ => false) (fun _ => "")).1 = .ioFailure ∧
    ((mergeMarkdownFiles "book" "out.md" (.dir [("a.md", "A")]) (some "OLD")
      (fun _ => true) (fun _ => false) (fun _ => "")).2).isSome = true :=
  C6_thm "book" "out.md" [("a.md", "A")] (some "OLD") (fun _ => true)
    (fun _ => false) (fun _ => "") (Or.inl (by decide))

/-- C7: given fixed source-directory contents and an output path outside
the source directory (so the first run leaves the directory's files
unchanged), running the merge a second time on the filesystem state left
by the first run reproduces the first run's result exactly: byte-identical
output and an unchanged filesystem. -/
theorem C7_thm (bookDir outputFile : String) (src : SrcEntry)
    (outInit : Option String) (flushed : String → String)
    (hout : ∀ files, src = .dir files →
      ∀ p ∈ files, bookDir ++ "/" ++ p.1 ≠ outputFile) :
    mergeMarkdownFiles bookDir outputFile src
        (mergeMarkdownFiles bookDir outputFile src outInit
          (fun _ => false) (fun _ => false) flushed).2
        (fun _ => false) (fun _ => false) flushed =
      mergeMarkdownFiles bookDir outputFile src outInit
        (fun _ => false) (fun _ => false) flushed := by
  cases src with
  | absent => rfl
  | file c => rfl
  | dir files =>
    by_cases hne : matchedFiles files = []
    · rw [merge_empty _ _ _ _ _ _ _ hne, merge_empty _ _ _ _ _ _ _ hne]
    · have h1 := merge_joined bookDir outputFile files outInit flushed hne
        (hout files rfl)
      have h2 := merge_joined bookDir outputFile files
        (mergeMarkdownFiles bookDir outputFile (.dir files) outInit
          (fun _ => false) (fun _ => false) flushed).2 flushed hne
        (hout files rfl)
      rw [h2, h1]

/-- C7 (witness): merging `{a.md = "A"}` to `out.md` twice in succession. -/
theorem C7_witness :
    mergeMarkdownFiles "book" "out.md" (.dir [("a.md", "A")])
        (mergeMarkdownFiles "book" "out.md" (.dir [("a.md", "A")]) none
          (fun _ => false) (fun _ => false) (fun _ => "")).2
        (fun _ => false) (fun _ => false) (fun _ => "") =
      mergeMarkdownFiles "book" "out.md" (.dir [("a.md", "A")]) none
        (fun _ => false) (fun _ => false) (fun _ => "") :=
  C7_thm "book" "out.md" (.dir [("a.md", "A")]) none (fun _ => "")
    (by intro files hf; cases hf; decide)

/-- C8: the command-line entry point exits with code 0 exactly when the
merge reports success, and with code 1 exactly when it reports any
failure. -/
theorem C8_thm (bookDir outputFile : String) (src : SrcEntry)
    (outInit : Option String) (rf : String → Bool) (wf : Nat → Bool)
    (flushed : String → String) :
    (mainExitCode bookDir outputFile src outInit rf wf flushed = 0 ↔
      ∃ n s, (mergeMarkdownFiles bookDir outputFile src outInit rf wf
        flushed).1 = .ok n s) ∧
    (mainExitCode bookDir outputFile src outInit rf wf flushed = 1 ↔
      ∀ n s, (mergeMarkdownFiles bookDir outputFile src outInit rf wf
        flushed).1 ≠ .ok n s) := by
  unfold mainExitCode
  cases h : (mergeMarkdownFiles bookDir outputFile src outInit rf wf flushed).1 <;>
    simp [h]

/-- C9: whenever at least one `.md` file matches, the output is opened for
writing with truncation before any source content is read; if reading the
first (sorted) source file fails, the merge fails with `ioFailure` and the
output file is left empty — its pre-existing content (`outInit`, arbitrary
here) is already destroyed, never preserved. -/
theorem C9_thm (bookDir outputFile : String) (files : List (String × String))
    (outInit : Option String) (rf : String → Bool) (wf : Nat → Bool)
    (flushed : String → String) (name c : String)
    (rest : List (String × String))
    (hsort : sortFiles (matchedFiles files) = (name, c) :: rest)
    (hr : rf name = true) :
    mergeMarkdownFiles bookDir outputFile (.dir files) outInit rf wf flushed =
      (.ioFailure, some "") := by
  simp [mergeMarkdownFiles, hsort, mergeLoop, hr]

/-- C9 (witness): the single file's read fails; the output file that held
`"PRIOR"` is left empty. -/
theorem C9_witness :
    mergeMarkdownFiles "book" "out.md" (.dir [("a.md", "A")]) (some "PRIOR")
      (fun _ => true) (fun _ => false) (fun _ => "") = (.ioFailure, some "") :=
  C9_thm "book" "out.md" [("a.md", "A")] (some "PRIOR") (fun _ => true)
    (fun _ => false) (fun _ => "") "a.md" "A" [] (by decide) rfl

/-- C10 (counterexample): the claim's conclusion "the resulting output is
not the concatenation of the inputs' original contents" fails in a case
the claim covers: for `book/` holding only the pre-existing
`compiled.md` = `""` merged to `book/compiled.md` (nothing flushed before
the self-read), the output equals the separator-join of the original
contents (both are `""`). -/
theorem C10_cex :
    (mergeMarkdownFiles "book" "book/compiled.md" (.dir [("compiled.md", "")])
      (some "") (fun _ => false) (fun _ => false) (fun _ => "")).2 =
      some (joinWithSep ((sortFiles (matchedFiles
        [("compiled.md", "")])).map Prod.snd)) := by decide

/-- C10 (amended): a pre-existing `.md` file at the output path directly
inside the source directory is itself enumerated as a merge input; because
it is truncated when the output is opened and the buffered handle flushes
nothing to disk before it is read (for outputs below the I/O buffer size),
the self-included file contributes the flushed portion of the output
written so far (`flushed` of the text written before it — the empty string
in the sub-buffer regime) instead of its original text, so the resulting
output is the separator-join with that replacement — which differs from
the concatenation of the originals except when the replacement coincides
with the file's original text. -/
theorem C10_thm (bookDir outputFile : String) (files : List (String × String))
    (outInit : Option String) (flushed : String → String)
    (pre post : List (String × String)) (w : String × String)
    (hsort : sortFiles (matchedFiles files) = pre ++ w :: post)
    (hw : bookDir ++ "/" ++ w.1 = outputFile)
    (hpre : ∀ p ∈ pre, bookDir ++ "/" ++ p.1 ≠ outputFile)
    (hpost : ∀ p ∈ post, bookDir ++ "/" ++ p.1 ≠ outputFile) :
    w ∈ sortFiles (matchedFiles files) ∧
    (mergeMarkdownFiles bookDir outputFile (.dir files) outInit
      (fun _ => false) (fun _ => false) flushed).2 =
      some (joinWithSep (pre.map (fun p => readText p.2) ++
        readText (flushed (partialBefore (pre.map (fun p => readText p.2)))) ::
          post.map (fun p => readText p.2))) := by
  constructor
  · rw [hsort]; exact List.mem_append_right _ (List.mem_cons_self _ _)
  · have hloop := mergeLoop_self bookDir outputFile flushed pre w post 0 ""
      hpre hpost hw
    have hnil : (pre ++ w :: post : List (String × String)) ≠ [] := by simp
    simp [mergeMarkdownFiles, hsort, List.isEmpty_eq_false.mpr hnil, hloop,
      String.empty_append]

/-- C10 (witness): `book/` holds `a.md` = "A" and a pre-existing
`compiled.md` = "OLD"; merging to `book/compiled.md` enumerates
`compiled.md` itself, which reads back as the flushed portion of the
output — empty, nothing having been flushed — so the final output is
`"A\n\n---\n\n"`, not a merge of "OLD". -/
theorem C10_witness :
    ("compiled.md", "OLD") ∈ sortFiles (matchedFiles
      [("a.md", "A"), ("compiled.md", "OLD")]) ∧
    (mergeMarkdownFiles "book" "book/compiled.md"
      (.dir [("a.md", "A"), ("compiled.md", "OLD")]) (some "OLD")
      (fun _ => false) (fun _ => false) (fun _ => "")).2 =
      some "A\n\n---\n\n" := by
  have h := C10_thm "book" "book/compiled.md"
    [("a.md", "A"), ("compiled.md", "OLD")] (some "OLD") (fun _ => "")
    [("a.md", "A")] [] ("compiled.md", "OLD")
    (by decide) (by decide) (by decide) (by decide)
  exact ⟨h.1, by rw [h.2]; decide⟩
